import Mathlib

/-!
# Verification of `src/router/ai/optimizer.py` (Sentium-Bridge route optimizer)

A shallow embedding of the AI route optimizer: routes are structured records,
the chain feature encoder, graph builder, GNN forward pass, route scorer,
route selector, heuristic cost function and single training step are plain
Lean functions over exact rationals (`ℚ` replaces Python's floats; the
claims under scrutiny are all exact-arithmetic facts about dataflow,
shapes, ordering and selection, not float rounding).

Modelling conventions:
* Python dictionaries for hops/routes become structures (`Hop`, `Route`).
* A Python function that can `raise` is embedded as `Except String _`;
  a `raise` becomes `.error`, a normal return becomes `.ok`.
* Library calls (`torch`, `torch_geometric`) are not repository code; they
  are modelled from their documented semantics at the granularity the
  source uses them, see the individual doc comments.
* Randomness (dropout) is made explicit: a `Masks` value is the RNG draw;
  `nn.Dropout` consults it only in training mode, exactly as in torch.
-/

abbrev Vec := List ℚ
abbrev Mat := List Vec

/-- One hop of a route: the Python dict
`{'from_chain', 'to_chain', 'bridge_type', 'cost', 'time_ms'}`. -/
structure Hop where
  from_chain : String
  to_chain : String
  bridge_type : String
  cost : ℚ
  time_ms : ℚ
deriving DecidableEq

/-- A route dict: `{'hops', 'estimated_cost', 'estimated_time_ms',
'confidence_score'}` (the `source_chain`/`target_chain` keys are never read
by the optimizer core, so they are omitted from the embedding). -/
structure Route where
  hops : List Hop
  estimated_cost : ℚ
  estimated_time_ms : ℚ
  confidence_score : ℚ
deriving DecidableEq

/-- Static per-chain metadata (`self.chain_metadata` values). -/
structure ChainMeta where
  id : ℕ
  avg_latency : ℚ
  avg_cost : ℚ
  reliability : ℚ
deriving DecidableEq

/-- `self.chain_metadata`: the hard-coded five-chain dictionary in
`RouteOptimizer.__init__`, as a lookup function (Python dict membership
test plus indexing). -/
def chain_metadata (name : String) : Option ChainMeta :=
  if name = "ethereum" then some ⟨0, 15000, 50000, 0.99⟩
  else if name = "polkadot" then some ⟨1, 6000, 30000, 0.98⟩
  else if name = "bitcoin" then some ⟨2, 600000, 100000, 0.95⟩
  else if name = "cosmos" then some ⟨3, 7000, 40000, 0.97⟩
  else if name = "sentium" then some ⟨4, 500, 10000, 0.99⟩
  else none

/-- `RouteOptimizer.encode_chain`: a 16-long feature vector.  Unknown chain
names yield `np.zeros(16)`; known ones populate indices 0..3 and a one-hot
at `4 + id`, leaving the remaining entries at zero (`np.ndarray.__setitem__`
becomes `List.set`). -/
def encode_chain (chain_name : String) : Vec :=
  match chain_metadata chain_name with
  | none => List.replicate 16 (0 : ℚ)
  | some meta =>
      (((((List.replicate 16 (0 : ℚ)).set 0 ((meta.id : ℚ) / 10)).set 1
          (meta.avg_latency / 1000000)).set 2 (meta.avg_cost / 100000)).set 3
          meta.reliability).set (4 + meta.id) 1

/-- The chain names mentioned by the hops, with multiplicity, in traversal
order (`for hop in hops: chains.add(from); chains.add(to)`). -/
def routeChainNames (hops : List Hop) : List String :=
  hops.flatMap fun h => [h.from_chain, h.to_chain]

/-- Lexicographic comparison of character lists by code point — the order
Python's `sorted` uses on strings (and the order of `String.lt`). -/
def charListLeb : List Char → List Char → Bool
  | [], _ => true
  | _ :: _, [] => false
  | a :: as, b :: bs => if a < b then true else if b < a then false else charListLeb as bs

/-- Insert a string into a lexicographically sorted list of strings. -/
def insertStr (s : String) : List String → List String
  | [] => [s]
  | t :: ts => if charListLeb s.data t.data then s :: t :: ts else t :: insertStr s ts

/-- Sort a list of strings lexicographically (insertion sort).  Applied to
the deduplicated chain-name list this is exactly Python's
`sorted(list(set(chains)))`: the same distinct names in the same
code-point order. -/
def sortStrings : List String → List String
  | [] => []
  | s :: ss => insertStr s (sortStrings ss)

/-- The fixed bridge-type vocabulary of `create_graph_from_route`. -/
def bridge_types : List String := ["Native", "Wrapped", "Liquidity", "Relay"]

/-- The 6-long edge feature vector of one hop: `[cost/1e5, time_ms/1e6]`
followed by the 4-wide bridge-type one-hot.  (The Python builds the one-hot
by writing `1.0` at `bridge_types.index(...)` when the type is recognised;
since `bridge_types` has no duplicates this is the indicator map below, and
an unrecognised type leaves the one-hot all zero.) -/
def edgeFeatures (h : Hop) : Vec :=
  [h.cost / 100000, h.time_ms / 1000000]
    ++ bridge_types.map fun t => if h.bridge_type = t then (1 : ℚ) else 0

/-- The `torch_geometric.data.Data` payload built by the graph builder:
node feature rows, directed edges as index pairs, and edge feature rows. -/
structure GraphData where
  x : List Vec
  edge_index : List (ℕ × ℕ)
  edge_attr : List Vec
deriving DecidableEq

/-- `RouteOptimizer.create_graph_from_route`.  Collects the set of distinct
chain names over the hops (a Python `set`), sorts it (`sorted`) to fix node
indices, encodes each node, and emits one edge per hop in input order,
looking up endpoints in the sorted list (the `chain_to_idx` dict).  The
source contains no `raise` and no failing operation for structurally valid
routes — in particular a zero-hop route flows through every step with empty
lists — so every path ends in `.ok`. -/
def create_graph_from_route (route : Route) : Except String GraphData :=
  let hops := route.hops
  let chains := sortStrings (routeChainNames hops).dedup
  let x := chains.map encode_chain
  let edge_index := hops.map fun h =>
    (chains.indexOf h.from_chain, chains.indexOf h.to_chain)
  let edge_attr := hops.map edgeFeatures
  .ok ⟨x, edge_index, edge_attr⟩

/-- The graph payload of a successful build (total extractor used to state
properties; `create_graph_from_route` never actually errors). -/
def builtGraph (route : Route) : GraphData :=
  match create_graph_from_route route with
  | .ok g => g
  | .error _ => ⟨[], [], []⟩

/-! ## The model: `RouteGNN`

`torch` / `torch_geometric` primitives are library code, modelled from
their documented semantics as instantiated by `RouteGNN`:

* `nn.Linear(i, o)` maps `x` to `W x + b`.
* `GCNConv(i, o)` (defaults: `add_self_loops=True`, `normalize=True`,
  `bias=True`, flow source→target) computes
  `x'_i = W (Σ_{(j,i) ∈ E ∪ selfloops} c_{ji} · x_j) + b` where the library
  coefficient is `c_{ji} = 1/√(d̂_j · d̂_i)` with `d̂` the in-degree after
  adding self-loops.  The `√` is irrational, so this embedding uses the
  exact rational stand-in `c_{ji} = 1/(d̂_j · d̂_i)`: a strictly positive
  normalization with the same arguments, the same dataflow and the same
  zero/nonzero structure.  None of the verified claims depends on the
  numeric value of the normalization, only on which inputs the layer reads.
* `F.relu` clamps each entry at zero; `global_mean_pool` averages node
  rows per graph; `nn.Dropout(p)`, in training mode, zeroes the entries
  selected by the RNG draw and scales the kept ones by `1/(1-p)`, and in
  eval (inference) mode is the identity.
-/

def dot (a b : Vec) : ℚ := (List.zipWith (· * ·) a b).sum

def vadd (a b : Vec) : Vec := List.zipWith (· + ·) a b

def smul (c : ℚ) (v : Vec) : Vec := v.map fun a => c * a

/-- `nn.Linear`: rows of `W` paired with entries of `b`. -/
def linear (W : Mat) (b : Vec) (x : Vec) : Vec :=
  List.zipWith (fun row bi => dot row x + bi) W b

/-- `F.relu`, elementwise on one node row. -/
def reluV (v : Vec) : Vec := v.map fun a => max a 0

/-- `F.relu` on a stack of node rows. -/
def reluL (xs : List Vec) : List Vec := xs.map reluV

/-- The edge list with one self-loop per node appended
(`add_self_loops=True`). -/
def withSelfLoops (n : ℕ) (edges : List (ℕ × ℕ)) : List (ℕ × ℕ) :=
  edges ++ (List.range n).map fun i => (i, i)

/-- In-degree of node `i` counting self-loops (`gcn_norm`'s `deg`). -/
def degHat (edges : List (ℕ × ℕ)) (n i : ℕ) : ℕ :=
  ((withSelfLoops n edges).filter fun e => e.2 = i).length

/-- The normalized neighbourhood sum feeding node `i` of a `GCNConv`. -/
def gcnAgg (x : List Vec) (edges : List (ℕ × ℕ)) (i : ℕ) : Vec :=
  let n := x.length
  (((withSelfLoops n edges).filter fun e => e.2 = i).map fun e =>
      smul (1 / ((degHat edges n e.1 : ℚ) * (degHat edges n i : ℚ))) (x.getD e.1 []))
    |>.foldl vadd (List.replicate (x.headD []).length 0)

/-- One `GCNConv` layer (the library applies the linear map before
propagating; by linearity that equals propagating first, as done here). -/
def gcnconv (W : Mat) (b : Vec) (x : List Vec) (edges : List (ℕ × ℕ)) : List Vec :=
  (List.range x.length).map fun i => linear W b (gcnAgg x edges i)

/-- `x.train()` / `x.eval()` state of an `nn.Module`. -/
inductive Mode
  | training
  | inference
deriving DecidableEq

/-- The RNG draws consumed by the three `self.dropout` call sites of
`RouteGNN.forward` (after conv1, after conv2, after fc1): `mI r c = true`
means entry `c` of row `r` is dropped on call site `I`. -/
structure Masks where
  m1 : ℕ → ℕ → Bool
  m2 : ℕ → ℕ → Bool
  m3 : ℕ → ℕ → Bool

/-- `nn.Dropout(0.2)` applied to a stack of rows: identity in inference
mode; in training mode dropped entries become `0` and kept entries are
scaled by `1/(1-0.2) = 5/4`. -/
def dropoutL (mode : Mode) (m : ℕ → ℕ → Bool) (xs : List Vec) : List Vec :=
  match mode with
  | .inference => xs
  | .training =>
      xs.enum.map fun r => r.2.enum.map fun c => if m r.1 c.1 then 0 else c.2 * (5 / 4)

/-- `global_mean_pool x batch`: one averaged row per graph, the number of
graphs being `batch.max() + 1`. -/
def global_mean_pool (x : List Vec) (batch : List ℕ) : List Vec :=
  let numGraphs := (batch.foldl max 0) + 1
  (List.range numGraphs).map fun g =>
    let rows := ((x.zip batch).filter fun r => r.2 = g).map fun r => r.1
    smul (1 / (rows.length : ℚ)) (rows.foldl vadd (List.replicate (x.headD []).length 0))

/-- The weights of `RouteGNN`: three `GCNConv` layers and the two-layer
scoring head.  (Shapes live in the data: row/column counts of the
matrices play the roles of `node_features=16`, `hidden_dim=64`, `32`, `1`.) -/
structure RouteGNNParams where
  conv1W : Mat
  conv1b : Vec
  conv2W : Mat
  conv2b : Vec
  conv3W : Mat
  conv3b : Vec
  fc1W : Mat
  fc1b : Vec
  fc2W : Mat
  fc2b : Vec

/-- `RouteGNN.forward(x, edge_index, edge_attr, batch)`.  Exactly as in the
source, the `edge_attr` argument is accepted but never read: the three
`GCNConv` calls receive only `x` and `edge_index`. -/
def RouteGNN.forward (p : RouteGNNParams) (mode : Mode) (mask : Masks)
    (x : List Vec) (edge_index : List (ℕ × ℕ)) (edge_attr : List Vec)
    (batch : List ℕ) : List Vec :=
  let x1 := dropoutL mode mask.m1 (reluL (gcnconv p.conv1W p.conv1b x edge_index))
  let x2 := dropoutL mode mask.m2 (reluL (gcnconv p.conv2W p.conv2b x1 edge_index))
  let x3 := reluL (gcnconv p.conv3W p.conv3b x2 edge_index)
  let pooled := global_mean_pool x3 batch
  let h := dropoutL mode mask.m3 (reluL (pooled.map (linear p.fc1W p.fc1b)))
  h.map (linear p.fc2W p.fc2b)

/-- The scalar score the model assigns to one already-built graph in
inference mode: `RouteOptimizer.score_route`'s body after the graph is
built — single-graph batch vector `zeros(num_nodes)`, forward pass,
`score.item()`. -/
def scoreGraph (p : RouteGNNParams) (m : Masks) (g : GraphData) : ℚ :=
  let batch := List.replicate g.x.length 0
  ((RouteGNN.forward p .inference m g.x g.edge_index g.edge_attr batch).headD []).headD 0

/-- `RouteOptimizer.score_route`: `self.model.eval()` puts the model in
inference mode (so the RNG draw `m` is never consulted), the route is
turned into a graph and scored.  An exception from the graph builder would
propagate, hence the `Except`. -/
def score_route (p : RouteGNNParams) (m : Masks) (route : Route) : Except String ℚ := do
  let g ← create_graph_from_route route
  pure (scoreGraph p m g)

/-- The scalar value of a (never-failing) `score_route` call. -/
def scoreValue (p : RouteGNNParams) (m : Masks) (route : Route) : ℚ :=
  match score_route p m route with
  | .ok q => q
  | .error _ => 0

/-! ## Route selection (`RouteOptimizer.optimize_route`) -/

/-- The scoring loop of `optimize_route`: one `(score, route)` pair per
candidate, in input order; an exception from any `score_route` call would
abort the loop. -/
def scoreAll (p : RouteGNNParams) (m : Masks) : List Route → Except String (List (ℚ × Route))
  | [] => .ok []
  | r :: rs => do
      let s ← score_route p m r
      let rest ← scoreAll p m rs
      pure ((s, r) :: rest)

/-- Insert one scored pair into a list sorted by descending score, before
the first entry whose score does not exceed it. -/
def insDesc (a : ℚ × Route) : List (ℚ × Route) → List (ℚ × Route)
  | [] => [a]
  | b :: l => if b.1 ≤ a.1 then a :: b :: l else b :: insDesc a l

/-- `scored_routes.sort(key=lambda x: x[0], reverse=True)`.  Python's sort
is stable and, under `reverse=True`, orders by descending key while ties
keep their original relative order; this insertion sort computes the same
list (both are stable descending sorts by the first component). -/
def sortDesc : List (ℚ × Route) → List (ℚ × Route)
  | [] => []
  | a :: l => insDesc a (sortDesc l)

/-- `RouteOptimizer.optimize_route`: empty input raises `ValueError`, a
singleton is returned without scoring, otherwise all candidates are scored,
stably sorted by descending score and the head is returned
(`scored_routes[0][1]`; the `headD` default is unreachable since the sort
of a nonempty list is nonempty). -/
def optimize_route (p : RouteGNNParams) (m : Masks) (routes : List Route) :
    Except String Route :=
  match routes with
  | [] => .error "No routes provided"
  | [r] => .ok r
  | r1 :: r2 :: rs => do
      let scored ← scoreAll p m (r1 :: r2 :: rs)
      pure ((sortDesc scored).headD (0, r1)).2

/-! ## Heuristic cost and training step -/

/-- Module-level `cost_function`: weighted sum of normalized financial
cost, normalized time, and reliability penalty. -/
def cost_function (route : Route) : ℚ :=
  let w1 : ℚ := 0.4
  let w2 : ℚ := 0.3
  let w3 : ℚ := 0.3
  let financial_cost := route.estimated_cost / 100000
  let time_cost := route.estimated_time_ms / 1000000
  let reliability_penalty := 1 - route.confidence_score
  w1 * financial_cost + w2 * time_cost + w3 * reliability_penalty

/-- `Batch.from_data_list`: concatenate node rows and edge rows, shift each
graph's node indices by the number of nodes before it, and record the
node→graph assignment vector. -/
structure BatchData where
  x : List Vec
  edge_index : List (ℕ × ℕ)
  edge_attr : List Vec
  batch : List ℕ

def fromDataListAux (gi off : ℕ) : List GraphData → BatchData
  | [] => ⟨[], [], [], []⟩
  | g :: gs =>
      let rest := fromDataListAux (gi + 1) (off + g.x.length) gs
      ⟨g.x ++ rest.x,
       (g.edge_index.map fun e => (e.1 + off, e.2 + off)) ++ rest.edge_index,
       g.edge_attr ++ rest.edge_attr,
       List.replicate g.x.length gi ++ rest.batch⟩

def from_data_list (gs : List GraphData) : BatchData := fromDataListAux 0 0 gs

/-- `F.mse_loss`: mean of squared differences. -/
def mse_loss (preds labels : List ℚ) : ℚ :=
  ((List.zipWith (fun a b => (a - b) ^ 2) preds labels).sum) / (labels.length : ℚ)

/-- The per-graph predictions of `train_step`'s forward pass: batch the
graphs, run the model in training mode (this forward pass does consult the
dropout RNG draw), squeeze the `[batch, 1]` output to scalars. -/
def batchPredictions (p : RouteGNNParams) (m : Masks) (graphs : List GraphData) : List ℚ :=
  let b := from_data_list graphs
  (RouteGNN.forward p .training m b.x b.edge_index b.edge_attr b.batch).map fun v => v.headD 0

/-- The mutable state of one `RouteOptimizer` instance that `train_step`
can touch: the model weights and the training/inference mode flag. -/
structure OptState where
  params : RouteGNNParams
  mode : Mode

/-- `RouteOptimizer.train_step`: `self.model.train()` switches to training
mode, the batch is built, a forward pass and the MSE loss are computed and
the loss is returned.  The source contains no `loss.backward()` and no
optimizer step, so the weights it returns are the weights it received. -/
def train_step (s : OptState) (m : Masks) (batch_graphs : List GraphData)
    (labels : List ℚ) : ℚ × OptState :=
  (mse_loss (batchPredictions s.params m batch_graphs) labels,
   ⟨s.params, Mode.training⟩)

/-- Zero-weight parameter fixture (shapes: 16 → 1 → 1 → 1, head 1 → 1 → 1). -/
def paramsW : RouteGNNParams :=
  ⟨[List.replicate 16 0], [0], [[0]], [0], [[0]], [0], [[0]], [0], [[0]], [0]⟩

def maskOff : Masks := ⟨fun _ _ => false, fun _ _ => false, fun _ _ => false⟩

def maskOn : Masks := ⟨fun _ _ => true, fun _ _ => true, fun _ _ => true⟩

def emptyRoute : Route := ⟨[], 0, 0, 0⟩

/-- Two-hop ethereum→sentium→polkadot demo route. -/
def routeHi : Route :=
  ⟨[⟨"ethereum", "sentium", "Native", 50000, 5000⟩,
    ⟨"sentium", "polkadot", "Native", 30000, 3000⟩], 80000, 8000, 0.97⟩

/-- One-hop ethereum→polkadot demo route. -/
def routeLo : Route :=
  ⟨[⟨"ethereum", "polkadot", "Liquidity", 80000, 8000⟩], 80000, 8000, 0.90⟩

def routeA : Route := ⟨[⟨"ethereum", "polkadot", "Native", 50000, 5000⟩], 80000, 8000, 0.97⟩

/-- Same hops as `routeA`, different aggregate fields. -/
def routeB : Route := ⟨[⟨"ethereum", "polkadot", "Native", 50000, 5000⟩], 12345, 9999, 0.5⟩

/-- Same chains and topology as `routeA`, different hop cost/time/bridge. -/
def routeC : Route := ⟨[⟨"ethereum", "polkadot", "Liquidity", 80000, 8000⟩], 80000, 8000, 0.9⟩

/-- The first pair of a scored list attaining the maximal score: keep the
current element unless a strictly larger score appears later.  This is the
claim-side description of the selection (`the first candidate whose score
equals the maximum`), to be compared with what the code computes. -/
def firstMaxP : List (ℚ × Route) → Option (ℚ × Route)
  | [] => none
  | a :: l =>
      match firstMaxP l with
      | none => some a
      | some b => if a.1 < b.1 then some b else some a

/-! ## Helper lemmas -/

theorem score_route_eq (p : RouteGNNParams) (m : Masks) (route : Route) :
    score_route p m route = .ok (scoreValue p m route) := rfl



theorem head_insDesc_nil (a : ℚ × Route) : (insDesc a []).head? = some a := rfl

theorem head_insDesc_le (a b : ℚ × Route) (t : List (ℚ × Route)) (h : b.1 ≤ a.1) :
    (insDesc a (b :: t)).head? = some a := by
  simp [insDesc, h]

theorem head_insDesc_gt (a b : ℚ × Route) (t : List (ℚ × Route)) (h : a.1 < b.1) :
    (insDesc a (b :: t)).head? = some b := by
  simp [insDesc, not_le.mpr h]

theorem firstMaxP_cons (a : ℚ × Route) (l : List (ℚ × Route)) :
    firstMaxP (a :: l) = match firstMaxP l with
      | none => some a
      | some b => if a.1 < b.1 then some b else some a := rfl

/-- The head of the stable descending sort is the first maximal element. -/
theorem head_sortDesc : ∀ l : List (ℚ × Route), (sortDesc l).head? = firstMaxP l
  | [] => rfl
  | a :: t => by
      have ih := head_sortDesc t
      simp only [sortDesc]
      cases hs : sortDesc t with
      | nil =>
          have h0 : firstMaxP t = none := by rw [← ih, hs]; rfl
          rw [head_insDesc_nil, firstMaxP_cons, h0]
      | cons b t' =>
          have h0 : firstMaxP t = some b := by rw [← ih, hs]; rfl
          rcases le_or_lt b.1 a.1 with h | h
          · rw [head_insDesc_le a b t' h, firstMaxP_cons, h0]
            simp [not_lt.mpr h]
          · rw [head_insDesc_gt a b t' h, firstMaxP_cons, h0]
            simp [h]

/-- `firstMaxP` splits its input around the first maximum: everything is
bounded by the returned score and everything strictly before it is
strictly below. -/
theorem firstMaxP_split : ∀ (l : List (ℚ × Route)) (a : ℚ × Route),
    ∃ pre s post, a :: l = pre ++ s :: post ∧ firstMaxP (a :: l) = some s ∧
      (∀ b ∈ a :: l, b.1 ≤ s.1) ∧ (∀ b ∈ pre, b.1 < s.1)
  | [], a => ⟨[], a, [], rfl, rfl, by simp, by simp⟩
  | c :: t, a => by
      obtain ⟨pre, s, post, hsplit, hmax, hle, hlt⟩ := firstMaxP_split t c
      by_cases h : a.1 < s.1
      · refine ⟨a :: pre, s, post, ?_, ?_, ?_, ?_⟩
        · simp [hsplit]
        · rw [firstMaxP_cons, hmax]
          simp [h]
        · intro b hb
          rcases List.mem_cons.mp hb with rfl | hb
          · exact le_of_lt h
          · exact hle b hb
        · intro b hb
          rcases List.mem_cons.mp hb with rfl | hb
          · exact h
          · exact hlt b hb
      · refine ⟨[], a, c :: t, rfl, ?_, ?_, by simp⟩
        · rw [firstMaxP_cons, hmax]
          simp [h]
        · intro b hb
          rcases List.mem_cons.mp hb with rfl | hb
          · exact le_refl _
          · exact le_trans (hle b hb) (not_lt.mp h)

theorem scoreAll_eq (p : RouteGNNParams) (m : Masks) : ∀ rs : List Route,
    scoreAll p m rs = .ok (rs.map fun r => (scoreValue p m r, r))
  | [] => rfl
  | r :: rs => by
      rw [scoreAll, score_route_eq, scoreAll_eq p m rs]
      rfl

/-- Unfolding of `optimize_route` on two or more candidates. -/
theorem optimize_route_cons (p : RouteGNNParams) (m : Masks) (r1 r2 : Route)
    (rs : List Route) :
    optimize_route p m (r1 :: r2 :: rs)
      = .ok ((sortDesc ((r1 :: r2 :: rs).map fun r => (scoreValue p m r, r))).headD
          ((0 : ℚ), r1)).2 := by
  rw [optimize_route, scoreAll_eq]
  rfl

theorem insertStr_length (s : String) (l : List String) :
    (insertStr s l).length = l.length + 1 := by
  induction l with
  | nil => rfl
  | cons t ts ih =>
      simp only [insertStr]
      split
      · simp
      · simp [ih]

theorem sortStrings_length (l : List String) : (sortStrings l).length = l.length := by
  induction l with
  | nil => rfl
  | cons s ss ih => simp [sortStrings, insertStr_length, ih]

theorem score_route_eq_graph (p : RouteGNNParams) (m : Masks) (route : Route) :
    score_route p m route = .ok (scoreGraph p m (builtGraph route)) := rfl

/-- In inference mode the dropout RNG draw is never consulted. -/
theorem scoreGraph_mask (p : RouteGNNParams) (m m' : Masks) (g : GraphData) :
    scoreGraph p m g = scoreGraph p m' g := rfl

/-- The score of a built graph depends only on its node features and edge
connectivity, never on `edge_attr` (which `RouteGNN.forward` ignores). -/
theorem scoreGraph_only_x_ei (p : RouteGNNParams) (m m' : Masks) (g g' : GraphData)
    (hx : g.x = g'.x) (he : g.edge_index = g'.edge_index) :
    scoreGraph p m g = scoreGraph p m' g' := by
  obtain ⟨x, ei, ea⟩ := g
  obtain ⟨x', ei', ea'⟩ := g'
  dsimp only at hx he
  subst hx
  subst he
  rfl


/-! ## Claims -/

/-- C1 counterexample: `create_graph_from_route` applied to a route with an
empty hop list does NOT fail with a validation error — it returns a
(degenerate) graph with no nodes and no edges. -/
theorem create_graph_empty_returns_graph :
    create_graph_from_route emptyRoute = .ok ⟨[], [], []⟩ := rfl

/-- C1 (amended): for every route whose hop list is empty, the graph
builder raises no validation error; it returns an empty graph (zero nodes,
zero edges, zero edge features). -/
theorem create_graph_empty_hops (route : Route) (h : route.hops = []) :
    create_graph_from_route route = .ok ⟨[], [], []⟩ := by
  simp [create_graph_from_route, h, routeChainNames, sortStrings]

theorem create_graph_empty_hops_witness :
    emptyRoute.hops = [] ∧ create_graph_from_route emptyRoute = .ok ⟨[], [], []⟩ :=
  ⟨rfl, create_graph_empty_hops emptyRoute rfl⟩

/-- C2: with fixed `ModelParameters` and inference mode (dropout disabled),
`score_route` is a pure deterministic function of the built graph: calls on
routes with identical built graphs — in particular two calls on the same
route — return the identical score, whatever the dropout RNG draws were. -/
theorem score_route_deterministic (p : RouteGNNParams) (m m' : Masks) (r r' : Route)
    (h : builtGraph r = builtGraph r') :
    score_route p m r = score_route p m' r' := by
  rw [score_route_eq_graph, score_route_eq_graph, h]
  exact congrArg Except.ok (scoreGraph_mask p m m' (builtGraph r'))

theorem score_route_deterministic_witness :
    builtGraph routeA = builtGraph routeB ∧
    score_route paramsW maskOff routeA = score_route paramsW maskOn routeB :=
  ⟨rfl, score_route_deterministic paramsW maskOff maskOn routeA routeB rfl⟩

/-- C3: `RouteGNN.forward` never reads its `edge_attr` argument, so two
routes whose built graphs agree on node features and edge connectivity get
the same score even when their edge feature vectors differ arbitrarily. -/
theorem score_route_ignores_edge_attr (p : RouteGNNParams) (m m' : Masks) (r r' : Route)
    (hx : (builtGraph r).x = (builtGraph r').x)
    (he : (builtGraph r).edge_index = (builtGraph r').edge_index) :
    score_route p m r = score_route p m' r' := by
  rw [score_route_eq_graph, score_route_eq_graph]
  exact congrArg Except.ok (scoreGraph_only_x_ei p m m' _ _ hx he)

theorem score_route_ignores_edge_attr_witness :
    (builtGraph routeA).x = (builtGraph routeC).x ∧
    (builtGraph routeA).edge_index = (builtGraph routeC).edge_index ∧
    score_route paramsW maskOff routeA = score_route paramsW maskOff routeC :=
  ⟨rfl, rfl,
   score_route_ignores_edge_attr paramsW maskOff maskOff routeA routeC rfl rfl⟩

/-- C5: for every route with a non-empty hop list the built graph has one
node per distinct chain name among the hops' endpoints and one edge per
hop. -/
theorem create_graph_counts (route : Route) (hne : route.hops ≠ []) :
    ∃ g, create_graph_from_route route = .ok g ∧
      g.x.length = (routeChainNames route.hops).toFinset.card ∧
      g.edge_index.length = route.hops.length := by
  refine ⟨_, rfl, ?_, ?_⟩
  · simp [create_graph_from_route, sortStrings_length, List.card_toFinset]
  · simp [create_graph_from_route]

theorem create_graph_counts_witness :
    routeHi.hops ≠ [] ∧
    ∃ g, create_graph_from_route routeHi = .ok g ∧
      g.x.length = (routeChainNames routeHi.hops).toFinset.card ∧
      g.edge_index.length = routeHi.hops.length :=
  ⟨by decide, create_graph_counts routeHi (by decide)⟩

/-- C6: `encode_chain` always yields a 16-long vector; for a chain present
in the metadata, index 0 holds `id/10`, index 1 `avg_latency/1e6`, index 2
`avg_cost/1e5`, index 3 the reliability exactly, index `4+id` holds `1.0`
and every other index is `0`; an unknown chain yields the all-zero vector
(no error is raised). -/
theorem encode_chain_spec (name : String) :
    (encode_chain name).length = 16 ∧
    (∀ meta, chain_metadata name = some meta →
        (encode_chain name).getD 0 0 = (meta.id : ℚ) / 10 ∧
        (encode_chain name).getD 1 0 = meta.avg_latency / 1000000 ∧
        (encode_chain name).getD 2 0 = meta.avg_cost / 100000 ∧
        (encode_chain name).getD 3 0 = meta.reliability ∧
        (encode_chain name).getD (4 + meta.id) 0 = 1 ∧
        ∀ i < 16, i ∉ [0, 1, 2, 3, 4 + meta.id] →
          (encode_chain name).getD i 0 = 0) ∧
    (chain_metadata name = none → encode_chain name = List.replicate 16 0) := by
  refine ⟨?_, ?_, ?_⟩
  · unfold encode_chain
    split <;> simp
  · intro meta h
    unfold chain_metadata at h
    split_ifs at h with h1 h2 h3 h4 h5
    · subst h1; cases h; exact ⟨rfl, rfl, rfl, rfl, rfl, by decide⟩
    · subst h2; cases h; exact ⟨rfl, rfl, rfl, rfl, rfl, by decide⟩
    · subst h3; cases h; exact ⟨rfl, rfl, rfl, rfl, rfl, by decide⟩
    · subst h4; cases h; exact ⟨rfl, rfl, rfl, rfl, rfl, by decide⟩
    · subst h5; cases h; exact ⟨rfl, rfl, rfl, rfl, rfl, by decide⟩
  · intro h
    unfold encode_chain
    rw [h]

theorem encode_chain_spec_witness :
    chain_metadata "sentium" = some ⟨4, 500, 10000, 0.99⟩ ∧
    (encode_chain "sentium").getD 3 0 = (0.99 : ℚ) ∧
    (encode_chain "sentium").getD 8 0 = 1 ∧
    chain_metadata "solana" = none ∧
    encode_chain "solana" = List.replicate 16 0 := by
  have hk := (encode_chain_spec "sentium").2.1 ⟨4, 500, 10000, 0.99⟩ rfl
  have hu := (encode_chain_spec "solana").2.2 rfl
  exact ⟨rfl, hk.2.2.2.1, hk.2.2.2.2.1, rfl, hu⟩

/-- C7: `cost_function` is the stated weighted sum, and with equal
estimated cost and time the route with the lower confidence score gets a
strictly higher (worse) cost value. -/
theorem cost_function_spec (r r' : Route)
    (hc : r'.estimated_cost = r.estimated_cost)
    (ht : r'.estimated_time_ms = r.estimated_time_ms)
    (hconf : r'.confidence_score < r.confidence_score) :
    cost_function r = 0.4 * (r.estimated_cost / 100000)
        + 0.3 * (r.estimated_time_ms / 1000000) + 0.3 * (1 - r.confidence_score)
      ∧ cost_function r < cost_function r' := by
  constructor
  · rfl
  · simp only [cost_function, hc, ht]
    linarith

theorem cost_function_spec_witness :
    routeLo.estimated_cost = routeHi.estimated_cost ∧
    routeLo.estimated_time_ms = routeHi.estimated_time_ms ∧
    routeLo.confidence_score < routeHi.confidence_score ∧
    cost_function routeHi = 0.4 * (routeHi.estimated_cost / 100000)
        + 0.3 * (routeHi.estimated_time_ms / 1000000)
        + 0.3 * (1 - routeHi.confidence_score) ∧
    cost_function routeHi < cost_function routeLo := by
  have hlt : routeLo.confidence_score < routeHi.confidence_score := by
    norm_num [routeLo, routeHi]
  have h := cost_function_spec routeHi routeLo rfl rfl hlt
  exact ⟨rfl, rfl, hlt, h.1, h.2⟩

/-- C4: for every list of two or more candidates, `optimize_route`
returns a candidate occurring in the input whose score is the maximum over
all candidates, and every candidate strictly before it in input order
scores strictly below the maximum — i.e. the FIRST candidate achieving the
maximal score is returned, so ties go to the earlier candidate. -/
theorem optimize_route_stable_argmax (p : RouteGNNParams) (m : Masks)
    (r1 r2 : Route) (rs : List Route) :
    ∃ pre r post,
      r1 :: r2 :: rs = pre ++ r :: post ∧
      optimize_route p m (r1 :: r2 :: rs) = .ok r ∧
      (∀ r' ∈ r1 :: r2 :: rs, scoreValue p m r' ≤ scoreValue p m r) ∧
      (∀ r' ∈ pre, scoreValue p m r' < scoreValue p m r) := by
  obtain ⟨pre, s, post, hsplit, hmax, hle, hlt⟩ :=
    firstMaxP_split ((r2 :: rs).map fun r => (scoreValue p m r, r))
      (scoreValue p m r1, r1)
  have hscored : (r1 :: r2 :: rs).map (fun r => (scoreValue p m r, r))
      = (scoreValue p m r1, r1) :: (r2 :: rs).map fun r => (scoreValue p m r, r) := rfl
  have hs_mem : s ∈ (r1 :: r2 :: rs).map fun r => (scoreValue p m r, r) := by
    rw [hscored, hsplit]
    exact List.mem_append_right _ (List.mem_cons_self _ _)
  obtain ⟨r0, hr0_mem, hr0⟩ := List.mem_map.mp hs_mem
  have hs1 : s.1 = scoreValue p m s.2 := by rw [← hr0]
  refine ⟨pre.map Prod.snd, s.2, post.map Prod.snd, ?_, ?_, ?_, ?_⟩
  · have hc := congrArg (List.map Prod.snd) (hscored.symm.trans hsplit)
    simpa [List.map_map, Function.comp_def] using hc
  · rw [optimize_route_cons]
    have hh : (sortDesc ((r1 :: r2 :: rs).map fun r => (scoreValue p m r, r))).head?
        = some s := by
      rw [head_sortDesc, hscored, hmax]
    rw [List.headD_eq_head?, hh]
    rfl
  · intro r' hr'
    have hmem : (scoreValue p m r', r')
        ∈ (r1 :: r2 :: rs).map fun r => (scoreValue p m r, r) :=
      List.mem_map_of_mem _ hr'
    have h2 := hle (scoreValue p m r', r') (by rw [hscored] at hmem; exact hmem)
    rw [hs1] at h2
    exact h2
  · intro r' hr'
    obtain ⟨b, hb_mem, hb⟩ := List.mem_map.mp hr'
    have hb_in : b ∈ (r1 :: r2 :: rs).map fun r => (scoreValue p m r, r) := by
      rw [hscored, hsplit]
      exact List.mem_append_left _ hb_mem
    obtain ⟨rb, hrb_mem, hrb⟩ := List.mem_map.mp hb_in
    have hbb : b.1 = scoreValue p m b.2 := by rw [← hrb]
    have h3 := hlt b hb_mem
    rw [hbb, hb, hs1] at h3
    exact h3

/-- C8: `optimize_route` on an empty candidate list fails with the
input-validation error and performs no scoring. -/
theorem optimize_route_empty (p : RouteGNNParams) (m : Masks) :
    optimize_route p m [] = .error "No routes provided" := rfl

/-- C9: a singleton candidate list is returned unchanged without invoking
the scorer: the result does not depend on the model parameters or on the
dropout RNG state. -/
theorem optimize_route_singleton (p p' : RouteGNNParams) (m m' : Masks) (r : Route) :
    optimize_route p m [r] = .ok r ∧
    optimize_route p m [r] = optimize_route p' m' [r] :=
  ⟨rfl, rfl⟩

/-- C10: `train_step` returns the mean-squared-error loss of the batched
forward pass but performs no backward pass and no optimizer step: the model
parameters are unchanged and the only state effect is switching the model
to training mode. -/
theorem train_step_no_param_update (s : OptState) (m : Masks)
    (graphs : List GraphData) (labels : List ℚ)
    (h : labels.length = graphs.length) :
    (train_step s m graphs labels).2.params = s.params ∧
    (train_step s m graphs labels).2.mode = Mode.training ∧
    (train_step s m graphs labels).1
      = mse_loss (batchPredictions s.params m graphs) labels :=
  ⟨rfl, rfl, rfl⟩

theorem train_step_no_param_update_witness :
    ([(1 : ℚ)].length = [builtGraph routeA].length) ∧
    (train_step ⟨paramsW, Mode.inference⟩ maskOn [builtGraph routeA] [1]).2.params
        = paramsW ∧
    (train_step ⟨paramsW, Mode.inference⟩ maskOn [builtGraph routeA] [1]).2.mode
        = Mode.training ∧
    (train_step ⟨paramsW, Mode.inference⟩ maskOn [builtGraph routeA] [1]).1
        = mse_loss (batchPredictions paramsW maskOn [builtGraph routeA]) [1] :=
  ⟨rfl, train_step_no_param_update ⟨paramsW, Mode.inference⟩ maskOn
    [builtGraph routeA] [1] rfl⟩
